import Mathlib

/-!
Shallow embedding of the multi-provider authentication linking layer and the
AI response gateway of the ygitc-django-starter repository, together with
proofs of the specification claims about them.

Text is modelled as `List Char`; Python str helpers (strip, split, join,
replace, startswith, title) are embedded below.  Django ORM state is an
explicit `Store` record threaded through each operation.  External
collaborators (the SuperTokens credential check, the OAuth exchange, the
generative model, `json.loads`) enter as parameters of the embedded
operations.
-/

/-! ## Python string helpers over `List Char` -/

/-- Whitespace characters stripped by Python `str.strip()` (ASCII range). -/
def isPyWs (c : Char) : Bool :=
  c = ' ' || c = '\t' || c = '\n' || c = '\r' || c = '\x0b' || c = '\x0c'

/-- Right strip: drop trailing `isPyWs` characters. -/
def pyRStrip (l : List Char) : List Char :=
  (l.reverse.dropWhile isPyWs).reverse

/-- Python `str.strip()`: drop leading and trailing whitespace. -/
def pyStrip (l : List Char) : List Char :=
  pyRStrip (l.dropWhile isPyWs)

/-- Python `str.split('\n')`. -/
def splitLines : List Char → List (List Char)
  | [] => [[]]
  | c :: rest =>
    if c = '\n' then [] :: splitLines rest
    else
      match splitLines rest with
      | [] => [[c]]
      | l :: ls => (c :: l) :: ls

/-- Python `'\n'.join(...)`. -/
def joinLines : List (List Char) → List Char
  | [] => []
  | [l] => l
  | l :: l2 :: ls => l ++ '\n' :: joinLines (l2 :: ls)

/-- Does pattern `p` occur as a contiguous run inside `l`?
(Python `p in l`; `occurs [] l = true` as in Python.) -/
def occurs (p : List Char) : List Char → Bool
  | [] => p.isEmpty
  | c :: rest => p.isPrefixOf (c :: rest) || occurs p rest

/-- Fuel-driven core of Python `str.replace`: replace every left-to-right
non-overlapping occurrence of `p` by `r`.  Fuel `l.length` always suffices. -/
def replaceAllGo (p r : List Char) : Nat → List Char → List Char
  | _, [] => []
  | 0, l => l
  | Nat.succ fuel, c :: rest =>
    if !p.isEmpty && p.isPrefixOf (c :: rest) then
      r ++ replaceAllGo p r fuel (rest.drop (p.length - 1))
    else
      c :: replaceAllGo p r fuel rest

/-- Python `l.replace(p, r)` for nonempty patterns. -/
def replaceAll (p r l : List Char) : List Char :=
  replaceAllGo p r l.length l

/-- One step of Python `str.title()`: uppercase a letter that follows a
non-letter, lowercase a letter that follows a letter. -/
def pyTitleGo : Bool → List Char → List Char
  | _, [] => []
  | prevAlpha, c :: rest =>
    if c.isAlpha then
      (if prevAlpha then c.toLower else c.toUpper) :: pyTitleGo true rest
    else
      c :: pyTitleGo false rest

/-- Python `str.title()` over `List Char`. -/
def pyTitle (l : List Char) : List Char := pyTitleGo false l

/-- Python `str.title()` over `String` (used for provider display names). -/
def pyTitleS (s : String) : String := String.mk (pyTitle s.data)

/-! ## JSON values and a model of the external `json.loads` collaborator -/

/-- JSON values as returned by Python `json.loads`. -/
inductive JVal where
  | jnull : JVal
  | jbool : Bool → JVal
  | jnum : Int → JVal
  | jstr : List Char → JVal
  | jarr : List JVal → JVal
  | jobj : List (List Char × JVal) → JVal

/-- JSON insignificant whitespace. -/
def jsonWs (c : Char) : Bool :=
  c = ' ' || c = '\t' || c = '\n' || c = '\r'

def skipJsonWs (l : List Char) : List Char := l.dropWhile jsonWs

/-- Parse the body of a JSON string after the opening quote; escape
sequences are outside the fragment modelled here and make parsing fail. -/
def parseStringBody : List Char → Option (List Char × List Char)
  | [] => none
  | c :: rest =>
    if c = '"' then some ([], rest)
    else if c = '\\' then none
    else
      match parseStringBody rest with
      | some (s, rem) => some (c :: s, rem)
      | none => none

def digitsToNat (l : List Char) : Nat :=
  l.foldl (fun a c => a * 10 + (c.toNat - 48)) 0

mutual

/-- Recursive-descent JSON value parser (fuel-indexed). -/
def parseJVal : Nat → List Char → Option (JVal × List Char)
  | 0, _ => none
  | Nat.succ fuel, input =>
    match skipJsonWs input with
    | [] => none
    | c :: rest =>
      if c = '"' then
        match parseStringBody rest with
        | some (s, rem) => some (JVal.jstr s, rem)
        | none => none
      else if c = '{' then
        match skipJsonWs rest with
        | '}' :: rem => some (JVal.jobj [], rem)
        | _ =>
          match parseMembers fuel rest with
          | some (fs, rem) => some (JVal.jobj fs, rem)
          | none => none
      else if c = '[' then
        match skipJsonWs rest with
        | ']' :: rem => some (JVal.jarr [], rem)
        | _ =>
          match parseElems fuel rest with
          | some (vs, rem) => some (JVal.jarr vs, rem)
          | none => none
      else if c = 't' then
        if (("rue").toList).isPrefixOf rest then some (JVal.jbool true, rest.drop 3) else none
      else if c = 'f' then
        if (("alse").toList).isPrefixOf rest then some (JVal.jbool false, rest.drop 4) else none
      else if c = 'n' then
        if (("ull").toList).isPrefixOf rest then some (JVal.jnull, rest.drop 3) else none
      else if c = '-' then
        let ds := rest.takeWhile Char.isDigit
        if ds.isEmpty then none
        else some (JVal.jnum (-(Int.ofNat (digitsToNat ds))), rest.dropWhile Char.isDigit)
      else if c.isDigit then
        let ds := (c :: rest).takeWhile Char.isDigit
        some (JVal.jnum (Int.ofNat (digitsToNat ds)), (c :: rest).dropWhile Char.isDigit)
      else none

/-- Parse `"key": value` members of an object up to the closing brace. -/
def parseMembers : Nat → List Char → Option (List (List Char × JVal) × List Char)
  | 0, _ => none
  | Nat.succ fuel, input =>
    match skipJsonWs input with
    | '"' :: rest =>
      match parseStringBody rest with
      | none => none
      | some (key, rem) =>
        match skipJsonWs rem with
        | ':' :: rem2 =>
          match parseJVal fuel rem2 with
          | none => none
          | some (v, rem3) =>
            match skipJsonWs rem3 with
            | ',' :: rem4 =>
              match parseMembers fuel rem4 with
              | some (fs, rem5) => some ((key, v) :: fs, rem5)
              | none => none
            | '}' :: rem4 => some ([(key, v)], rem4)
            | _ => none
        | _ => none
    | _ => none

/-- Parse array elements up to the closing bracket. -/
def parseElems : Nat → List Char → Option (List JVal × List Char)
  | 0, _ => none
  | Nat.succ fuel, input =>
    match parseJVal fuel input with
    | none => none
    | some (v, rem) =>
      match skipJsonWs rem with
      | ',' :: rem2 =>
        match parseElems fuel rem2 with
        | some (vs, rem3) => some (v :: vs, rem3)
        | none => none
      | ']' :: rem2 => some ([v], rem2)
      | _ => none

end

/-- Models the external `json.loads` collaborator on the JSON fragment used
in this development (objects, arrays, integers, escape-free strings,
booleans, null); `none` models a raised `json.JSONDecodeError`. -/
def jsonLoads (l : List Char) : Option JVal :=
  match parseJVal (l.length + 1) l with
  | some (v, rem) => if skipJsonWs rem = [] then some v else none
  | none => none

/-! ## AI Response Gateway (mindflow/services.py) -/

/-- Embeds the text normalization of `EmpathicAIProcessor._parse_json_response`
(services.py lines 227-233): strip whitespace; if the text starts with a
triple-backtick fence, drop the first and last line when there are more than
two lines, then strip remaining fence markers and whitespace. -/
def stripCodeFences (response : List Char) : List Char :=
  let r := pyStrip response
  if (("```").toList).isPrefixOf r then
    let lines := splitLines r
    let r1 := if 2 < lines.length then joinLines ((lines.drop 1).dropLast) else r
    pyStrip (replaceAll (("```").toList) [] (replaceAll (("```json").toList) [] r1))
  else r

/-- Embeds `_parse_json_response` (services.py lines 225-238): normalize the
raw model text, then hand it to the external `json.loads` collaborator
(parameter `loads`); `none` models the re-raised `JSONDecodeError`. -/
def parse_json_response (loads : List Char → Option JVal) (response : List Char) : Option JVal :=
  loads (stripCodeFences response)

/-- Outcome of the external `ollama` generate call in `process_overwhelm`:
either the call raised (network/model error) or it returned raw text. -/
inductive ModelOutcome where
  | genError : ModelOutcome
  | response : List Char → ModelOutcome

/-- Embeds `EmpathicAIProcessor._fallback_response` (services.py lines
240-251), the fixed deterministic fallback payload. -/
def fallback_response : JVal :=
  JVal.jobj
    [ (("validation").toList,
        JVal.jstr (("I hear you. What you\x27re experiencing is valid, and it\x27s okay to feel overwhelmed.").toList)),
      (("category").toList, JVal.jstr (("mixed").toList)),
      (("energy_impact").toList, JVal.jstr (("medium").toList)),
      (("actionable_items").toList, JVal.jarr []),
      (("processing_items").toList,
        JVal.jarr [JVal.jstr (("Take a moment to breathe").toList),
                   JVal.jstr (("It\x27s okay to feel this way").toList)]),
      (("supportive_tags").toList,
        JVal.jarr [JVal.jstr (("self-care").toList),
                   JVal.jstr (("processing").toList),
                   JVal.jstr (("valid-feelings").toList)]),
      (("gentle_reframe").toList,
        JVal.jstr (("Sometimes our minds need to empty out. This is part of the process.").toList)),
      (("next_steps").toList,
        JVal.jstr (("Take a deep breath and know you don\x27t have to figure it all out right now").toList)) ]

/-- Embeds `EmpathicAIProcessor.process_overwhelm` (services.py lines 74-89):
call the model, parse its raw text, and on any failure (generate raised, or
the parse raised `JSONDecodeError`) return the fixed fallback payload. -/
def process_overwhelm (loads : List Char → Option JVal) (outcome : ModelOutcome) : JVal :=
  match outcome with
  | ModelOutcome.genError => fallback_response
  | ModelOutcome.response t =>
    match parse_json_response loads t with
    | some v => v
    | none => fallback_response

/-- Does a parsed JSON value (as a Python dict) contain string key `k`? -/
def jsonHasKey (v : JVal) (k : List Char) : Bool :=
  match v with
  | JVal.jobj fields => fields.any (fun f => f.1 = k)
  | _ => false

/-- Look up key `k` in a parsed JSON object. -/
def jsonGet (v : JVal) (k : List Char) : Option JVal :=
  match v with
  | JVal.jobj fields => (fields.find? (fun f => f.1 = k)).map (fun f => f.2)
  | _ => none

/-- The eight keys of the `process_overwhelm` contract. -/
def eightKeys : List (List Char) :=
  [("validation").toList, ("category").toList, ("energy_impact").toList,
   ("actionable_items").toList, ("processing_items").toList,
   ("supportive_tags").toList, ("gentle_reframe").toList, ("next_steps").toList]

/-- Does the value contain all eight contract keys? -/
def hasAllEightKeys (v : JVal) : Bool := eightKeys.all (jsonHasKey v)

/-- Markdown fenced wrapping of a document: a leading fence line with the
`json` language tag and a trailing fence line. -/
def fenceWrap (d : List Char) : List Char :=
  ("```json\n").toList ++ d ++ ("\n```").toList

/-! ## Identity store and linking tokens (users/auth_models.py) -/

/-- Embeds the `AuthProvider` model row (auth_models.py lines 5-33).
Users are identified by their unique email. -/
structure AuthProviderRec where
  userEmail : String
  provider : String
  providerUserId : Option String
  providerEmail : String
  is_verified : Bool
  lastUsed : Option Nat
deriving DecidableEq

/-- Embeds the `AuthLinkingToken` model row (auth_models.py lines 35-47). -/
structure LinkingTokenRec where
  userEmail : String
  provider : String
  token : String
  expires_at : Nat
  is_used : Bool
deriving DecidableEq

/-- The relational state shared by the auth operations: the user table,
the `AuthProvider` table and the `AuthLinkingToken` table. -/
structure Store where
  users : List String
  authProviders : List AuthProviderRec
  linkTokens : List LinkingTokenRec
deriving DecidableEq

/-! ## MultiAuthHandler (users/supertokens_auth.py lines 21-70) -/

/-- Embeds `MultiAuthHandler.get_or_create_user`. -/
def get_or_create_user (st : Store) (email : String) : Store :=
  if st.users.contains email then st
  else { st with users := st.users ++ [email] }

/-- Embeds `MultiAuthHandler.check_auth_method_linked`: a verified
`AuthProvider` row for (user, provider) exists. -/
def check_auth_method_linked (st : Store) (email provider : String) : Bool :=
  st.authProviders.any (fun a => a.userEmail == email && a.provider == provider && a.is_verified)

/-- Embeds `MultiAuthHandler.link_auth_provider`: `get_or_create` by
(user, provider) with `is_verified` defaulting to `auto_verify`; an existing
unverified row is marked verified when `auto_verify` is set. -/
def link_auth_provider (st : Store) (userEmail provider providerEmail : String)
    (providerUserId : Option String) (autoVerify : Bool) : Store :=
  match st.authProviders.find? (fun a => a.userEmail == userEmail && a.provider == provider) with
  | some a =>
    if !a.is_verified && autoVerify then
      { st with authProviders :=
          st.authProviders.map (fun b =>
            if b.userEmail == userEmail && b.provider == provider then
              { b with is_verified := true }
            else b) }
    else st
  | none =>
    { st with authProviders :=
        st.authProviders ++ [⟨userEmail, provider, providerUserId, providerEmail, autoVerify, none⟩] }

/-- Embeds `MultiAuthHandler.create_linking_token`: a fresh unused token
row expiring one hour (3600 seconds) from now; the random token value is the
`tokenVal` parameter. -/
def create_linking_token (st : Store) (userEmail provider tokenVal : String) (now : Nat) : Store :=
  { st with linkTokens := st.linkTokens ++ [⟨userEmail, provider, tokenVal, now + 3600, false⟩] }

/-- `mark_used` applied to `.filter(...).first()`: update the `last_used`
timestamp of the first row matching the predicate. -/
def markUsedFirst : List AuthProviderRec → (AuthProviderRec → Bool) → Nat → List AuthProviderRec
  | [], _, _ => []
  | a :: rest, pred, now =>
    if pred a then { a with lastUsed := some now } :: rest
    else a :: markUsedFirst rest pred now

/-! ## Multi-Auth Reconciler sign-in overrides (users/supertokens_auth.py) -/

/-- Result of an overridden SuperTokens API handler: the structured denial
(`GeneralErrorResponse`), a pass-through success (`SignInPostOkResult` /
`SignInUpPostOkResult` / a consumed code with a user), a pass-through failure
of the underlying provider check, or an uncaught Python exception. -/
inductive AuthResult where
  | okResult : AuthResult
  | generalError : String → AuthResult
  | providerRejected : AuthResult
  | uncaughtError : String → AuthResult
deriving DecidableEq

/-- The denial message of the email/password `sign_in_post` override
(supertokens_auth.py lines 120-123). -/
def emailDenialMsg : String :=
  "Email/password authentication is not enabled for this account. Please use your configured authentication method or enable email/password in your account settings."

/-- The denial message of the third-party `sign_in_up_post` override
(supertokens_auth.py lines 167-170). -/
def tpDenialMsg (tpid : String) : String :=
  pyTitleS tpid ++ " authentication is not enabled for this account. Please sign in with your existing method and link " ++ pyTitleS tpid ++ " in your account settings."

/-- The denial message of the passwordless `consume_code_post` override
(supertokens_auth.py lines 229-232). -/
def magicDenialMsg : String :=
  "Magic link authentication is not enabled for this account. Please use your configured authentication method or enable magic link in your account settings."

/-- Embeds the email/password `sign_in_post` override (supertokens_auth.py
lines 104-137).  `credOk` is the outcome of the original SuperTokens
credential check; an `ok` response with no matching `AuthProvider` row makes
`.first()` return `None` and `.mark_used()` raise `AttributeError`. -/
def sign_in_post (st : Store) (email : String) (credOk : Bool) (now : Nat) : AuthResult × Store :=
  if st.users.contains email && !check_auth_method_linked st email ("email") then
    (AuthResult.generalError emailDenialMsg, st)
  else if credOk then
    match st.authProviders.find? (fun a => a.userEmail == email && a.provider == "email") with
    | some _ =>
      (AuthResult.okResult,
       { st with authProviders :=
           markUsedFirst st.authProviders (fun a => a.userEmail == email && a.provider == "email") now })
    | none => (AuthResult.uncaughtError ("AttributeError"), st)
  else (AuthResult.providerRejected, st)

/-- Embeds the third-party `sign_in_up_post` override (supertokens_auth.py
lines 147-197): reject an existing user without a verified binding for this
provider; otherwise (creating the Django user first when absent) run the
original sign-in/up, and on success upsert a verified binding and mark it
used. -/
def sign_in_up_post (st : Store) (thirdPartyId email thirdPartyUserId : String)
    (credOk : Bool) (now : Nat) : AuthResult × Store :=
  if st.users.contains email && !check_auth_method_linked st email thirdPartyId then
    (AuthResult.generalError (tpDenialMsg thirdPartyId), st)
  else
    let st1 := get_or_create_user st email
    if credOk then
      let st2 := link_auth_provider st1 email thirdPartyId email (some thirdPartyUserId) true
      match st2.authProviders.find? (fun a => a.userEmail == email && a.provider == thirdPartyId) with
      | some _ =>
        (AuthResult.okResult,
         { st2 with authProviders :=
             markUsedFirst st2.authProviders (fun a => a.userEmail == email && a.provider == thirdPartyId) now })
      | none => (AuthResult.uncaughtError ("AttributeError"), st2)
    else (AuthResult.providerRejected, st1)

/-- Embeds the passwordless `consume_code_post` override (supertokens_auth.py
lines 206-252).  `consumeOk` models whether the original consume-code call
returned a response carrying a user (the magic link was valid); only then are
the reconciliation checks run. -/
def consume_code_post (st : Store) (consumeOk : Bool) (email userId : String)
    (now : Nat) : AuthResult × Store :=
  if consumeOk then
    if st.users.contains email && !check_auth_method_linked st email ("magic_link") then
      (AuthResult.generalError magicDenialMsg, st)
    else
      let st1 := get_or_create_user st email
      let st2 := link_auth_provider st1 email ("magic_link") email (some userId) true
      match st2.authProviders.find? (fun a => a.userEmail == email && a.provider == "magic_link") with
      | some _ =>
        (AuthResult.okResult,
         { st2 with authProviders :=
             markUsedFirst st2.authProviders (fun a => a.userEmail == email && a.provider == "magic_link") now })
      | none => (AuthResult.uncaughtError ("AttributeError"), st2)
  else (AuthResult.providerRejected, st)

/-! ## Auth settings views (users/auth_views.py) -/

/-- Python falsiness of `request.POST.get(...)`: absent (`None`) or empty. -/
def strOptFalsy : Option String → Bool
  | none => true
  | some s => s == ""

/-- Response of the `link_auth_method` view. -/
inductive LinkResult where
  | errorResp : String → LinkResult
  | oauthRedirect : String → String → LinkResult
  | showPasswordForm : String → LinkResult
  | magicLinkSent : String → LinkResult
deriving DecidableEq

/-- Embeds the `link_auth_method` view (auth_views.py lines 41-91): reject a
missing provider or an already-verified binding; otherwise mint a linking
token (`tokenVal` is the random value) and dispatch per provider, falling
through to an `Unsupported provider` error for unknown kinds. -/
def link_auth_method (st : Store) (userEmail : String) (provider : Option String)
    (tokenVal : String) (now : Nat) : LinkResult × Store :=
  if strOptFalsy provider then (LinkResult.errorResp ("Provider is required"), st)
  else
    let p := provider.getD ""
    if st.authProviders.any (fun a => a.userEmail == userEmail && a.provider == p && a.is_verified) then
      (LinkResult.errorResp ("This authentication method is already linked"), st)
    else
      let st1 := create_linking_token st userEmail p tokenVal now
      if p == "google" || p == "linkedin" then (LinkResult.oauthRedirect p tokenVal, st1)
      else if p == "email" then (LinkResult.showPasswordForm tokenVal, st1)
      else if p == "magic_link" then (LinkResult.magicLinkSent userEmail, st1)
      else (LinkResult.errorResp ("Unsupported provider"), st1)

/-- Response of the `unlink_auth_method` view. -/
inductive UnlinkResult where
  | errorResp : String → UnlinkResult
  | successResp : UnlinkResult
deriving DecidableEq

/-- The count the `unlink_auth_method` view computes: the user's verified
`AuthProvider` rows (auth_views.py lines 103-106). -/
def verified_count (st : Store) (userEmail : String) : Nat :=
  (st.authProviders.filter (fun a => a.userEmail == userEmail && a.is_verified)).length

/-- Embeds the `unlink_auth_method` view (auth_views.py lines 93-117):
reject a missing provider; reject when the user has at most one verified
binding; otherwise delete every binding of (user, provider). -/
def unlink_auth_method (st : Store) (userEmail : String) (provider : Option String) :
    UnlinkResult × Store :=
  if strOptFalsy provider then (UnlinkResult.errorResp ("Provider is required"), st)
  else
    let p := provider.getD ""
    if verified_count st userEmail ≤ 1 then
      (UnlinkResult.errorResp ("You must have at least one authentication method linked to your account"), st)
    else
      (UnlinkResult.successResp,
       { st with authProviders :=
           st.authProviders.filter (fun a => !(a.userEmail == userEmail && a.provider == p)) })

/-- User info returned by the external OAuth code exchange. -/
structure OAuthUserInfo where
  extId : String
  email : String
deriving DecidableEq

/-- Response of the `oauth_callback` view (a flash message plus redirect). -/
inductive CallbackResult where
  | errorMsg : String → CallbackResult
  | successMsg : String → CallbackResult
deriving DecidableEq

/-- Set `is_used = True` on the token row with this (unique) token value. -/
def markTokenUsed (ts : List LinkingTokenRec) (tokenVal : String) : List LinkingTokenRec :=
  ts.map (fun t => if t.token == tokenVal then { t with is_used := true } else t)

/-- Embeds the token-consuming core of the `oauth_callback` view
(auth_views.py lines 138-173), from the extracted linking token onward:
look up the token by value among unused rows (`DoesNotExist` gives the
invalid-token denial), reject when expired (`now > expires_at`) without
consuming, dispatch on the provider, then upsert the verified binding and
mark the token used.  `info` is the result of the external code exchange. -/
def oauth_callback (st : Store) (provider tokenVal : String) (info : OAuthUserInfo)
    (now : Nat) : CallbackResult × Store :=
  match st.linkTokens.find? (fun t => t.token == tokenVal && !t.is_used) with
  | none => (CallbackResult.errorMsg ("Invalid or expired linking token"), st)
  | some lt =>
    if lt.expires_at < now then (CallbackResult.errorMsg ("Linking token has expired"), st)
    else if provider == "google" || provider == "linkedin" then
      let st1 := link_auth_provider st lt.userEmail provider info.email (some info.extId) true
      let st2 := { st1 with linkTokens := markTokenUsed st1.linkTokens tokenVal }
      (CallbackResult.successMsg (pyTitleS provider ++ " authentication has been successfully linked to your account"), st2)
    else (CallbackResult.errorMsg ("Unsupported provider"), st)

/-- Response of the `set_password_for_linking` view. -/
inductive SetPwResult where
  | errorResp : String → SetPwResult
  | successResp : SetPwResult
deriving DecidableEq

/-- Embeds the `set_password_for_linking` view (auth_views.py lines 242-282):
look up the unused email-provider token by value, reject when expired without
consuming, otherwise set the password (outside this store), upsert the
verified email binding and mark the token used. -/
def set_password_for_linking (st : Store) (tokenVal password : Option String)
    (now : Nat) : SetPwResult × Store :=
  if strOptFalsy tokenVal || strOptFalsy password then
    (SetPwResult.errorResp ("Token and password are required"), st)
  else
    let tv := tokenVal.getD ""
    match st.linkTokens.find? (fun t => t.token == tv && t.provider == "email" && !t.is_used) with
    | none => (SetPwResult.errorResp ("Invalid token"), st)
    | some lt =>
      if lt.expires_at < now then (SetPwResult.errorResp ("Token has expired"), st)
      else
        let st1 := link_auth_provider st lt.userEmail ("email") lt.userEmail none true
        let st2 := { st1 with linkTokens := markTokenUsed st1.linkTokens tv }
        (SetPwResult.successResp, st2)

/-! ## Rate/Bot Gate (users/turnstile.py) -/

/-- Outcome of the external Turnstile verification call:
a `requests.RequestException`, a non-JSON body (`ValueError` from
`response.json()`), or a parsed JSON body whose `success` field is `b`
(`result.get('success', False)` gives `false` when the key is absent). -/
inductive TurnstileOutcome where
  | requestError : TurnstileOutcome
  | invalidJson : TurnstileOutcome
  | successField : Bool → TurnstileOutcome
deriving DecidableEq

/-- Embeds `verify_turnstile` (turnstile.py lines 25-57): with no configured
secret key, pass through in development (`DEBUG`) and fail closed in
production; with a configured key, any request error or non-JSON body gives
`False`, otherwise the parsed `success` field is returned. -/
def verify_turnstile (secretConfigured debug : Bool) (outcome : TurnstileOutcome) : Bool :=
  if !secretConfigured then
    if !debug then false else true
  else
    match outcome with
    | TurnstileOutcome.requestError => false
    | TurnstileOutcome.invalidJson => false
    | TurnstileOutcome.successField b => b

/-! ## Claim C4: failure gives the fixed fallback payload -/

/-- C4: for every failure of the model call or of JSON parsing, the value
returned by `process_overwhelm` is the one fixed fallback payload, with all
eight keys present and `actionable_items` equal to the empty list; the
embedded operation is total, so no exception reaches the caller. -/
theorem claim_C4_failure_gives_fallback (loads : List Char → Option JVal) (t : List Char)
    (hp : loads (stripCodeFences t) = none) :
    process_overwhelm loads ModelOutcome.genError = fallback_response ∧
    process_overwhelm loads (ModelOutcome.response t) = fallback_response ∧
    hasAllEightKeys fallback_response = true ∧
    jsonGet fallback_response (("actionable_items").toList) = some (JVal.jarr []) := by
  refine ⟨rfl, ?_, by decide, rfl⟩
  simp [process_overwhelm, parse_json_response, hp]

/-- C4 witness: a malformed model response under the modelled `json.loads`
hits the fallback path. -/
theorem claim_C4_failure_gives_fallback_witness :
    jsonLoads (stripCodeFences (("not json").toList)) = none ∧
    (process_overwhelm jsonLoads ModelOutcome.genError = fallback_response ∧
     process_overwhelm jsonLoads (ModelOutcome.response (("not json").toList)) = fallback_response ∧
     hasAllEightKeys fallback_response = true ∧
     jsonGet fallback_response (("actionable_items").toList) = some (JVal.jarr [])) :=
  ⟨rfl, claim_C4_failure_gives_fallback jsonLoads (("not json").toList) rfl⟩

/-! ## Claim C3 (corrected): the eight-key guarantee holds only on the fallback path -/

/-- C3 counterexample: the model response `"{}"` is valid JSON, parses
successfully, and is returned as-is, so the result of `process_overwhelm`
contains none of the eight keys. -/
theorem claim_C3_counterexample :
    hasAllEightKeys (process_overwhelm jsonLoads (ModelOutcome.response (("\x7b\x7d").toList))) = false := by
  decide

/-- C3 amended: the value returned by `process_overwhelm` either is the
fallback payload, which contains all eight keys, or is exactly the
model-derived JSON value, returned without any schema validation. -/
theorem claim_C3_amended_fallback_or_model (loads : List Char → Option JVal)
    (outcome : ModelOutcome) :
    (process_overwhelm loads outcome = fallback_response ∧
     hasAllEightKeys (process_overwhelm loads outcome) = true) ∨
    (∃ t v, outcome = ModelOutcome.response t ∧ loads (stripCodeFences t) = some v ∧
      process_overwhelm loads outcome = v) := by
  cases outcome with
  | genError =>
    refine Or.inl ⟨rfl, ?_⟩
    show hasAllEightKeys fallback_response = true
    decide
  | response t =>
    cases h : loads (stripCodeFences t) with
    | none =>
      left
      constructor
      · simp [process_overwhelm, parse_json_response, h]
      · have he : process_overwhelm loads (ModelOutcome.response t) = fallback_response := by
          simp [process_overwhelm, parse_json_response, h]
        rw [he]
        decide
    | some v =>
      right
      exact ⟨t, v, rfl, h, by simp [process_overwhelm, parse_json_response, h]⟩

/-! ## Claim C9 (corrected): the fail-open switch covers only the unconfigured case -/

/-- C9 counterexample: with a configured secret key, a development posture
(`DEBUG = true`) and an unreachable verification service,
`verify_turnstile` returns `False`, not the pass-through `True` the claim
states for a development posture. -/
theorem claim_C9_counterexample :
    ¬ (verify_turnstile true true TurnstileOutcome.requestError = true) := by
  decide

/-- C9 amended: the environment-dependent switch applies when the secret key
is not configured (pass-through in development, fail closed in production,
with no verification call made); once the key is configured, an unreachable
service or a non-JSON response returns `False` in both postures. -/
theorem claim_C9_amended_switch (debug : Bool) (outcome : TurnstileOutcome) :
    verify_turnstile false debug outcome = debug ∧
    verify_turnstile true debug TurnstileOutcome.requestError = false ∧
    verify_turnstile true debug TurnstileOutcome.invalidJson = false := by
  cases debug <;> exact ⟨rfl, rfl, rfl⟩

/-! ## Claim C10: the unsupported-provider error path still mints a token -/

/-- C10: an authenticated user initiating linking with a provider outside
the supported set (and no verified binding for it) receives the
`Unsupported provider` error response, yet a `LinkingToken` row has already
been created: the error path of `link_auth_method` is not atomic. -/
theorem claim_C10_unsupported_provider_creates_token
    (st : Store) (u p tok : String) (now : Nat)
    (hne : p ≠ "")
    (hg : p ≠ "google") (hl : p ≠ "linkedin") (he : p ≠ "email") (hm : p ≠ "magic_link")
    (hnv : st.authProviders.any (fun a => a.userEmail == u && a.provider == p && a.is_verified) = false) :
    link_auth_method st u (some p) tok now =
      (LinkResult.errorResp ("Unsupported provider"),
       { st with linkTokens := st.linkTokens ++ [⟨u, p, tok, now + 3600, false⟩] }) := by
  simp [link_auth_method, strOptFalsy, hne, hnv, create_linking_token, hg, hl, he, hm]

/-- C10 witness: linking provider `github` for a user with no bindings. -/
theorem claim_C10_unsupported_provider_creates_token_witness :
    (("github" : String) ≠ "" ∧ ("github" : String) ≠ "google" ∧
     ("github" : String) ≠ "linkedin" ∧ ("github" : String) ≠ "email" ∧
     ("github" : String) ≠ "magic_link" ∧
     (Store.mk [("a@x.com")] [] []).authProviders.any
       (fun a => a.userEmail == "a@x.com" && a.provider == "github" && a.is_verified) = false) ∧
    link_auth_method (Store.mk [("a@x.com")] [] []) ("a@x.com") (some ("github")) ("tok1") 100 =
      (LinkResult.errorResp ("Unsupported provider"),
       { Store.mk [("a@x.com")] [] [] with
           linkTokens := [] ++ [⟨("a@x.com"), ("github"), ("tok1"), 100 + 3600, false⟩] }) :=
  ⟨⟨by decide, by decide, by decide, by decide, by decide, by decide⟩,
   claim_C10_unsupported_provider_creates_token (Store.mk [("a@x.com")] [] [])
     ("a@x.com") ("github") ("tok1") 100 (by decide) (by decide) (by decide) (by decide)
     (by decide) (by decide)⟩

/-! ## Claim C1: sign-in without a verified binding is rejected -/

/-- C1: for every sign-in event (email/password login, OAuth sign-in,
magic-link consumption) where a user with the provider-reported email exists
but no verified binding for (user, provider kind) exists, the reconciler
returns the structured denial and mutates no state, regardless of whether
the provider's own credential check would have succeeded.  (For magic links
the overridden handler only learns the email when the original consume-code
call reports a user; a failed consume is still never an `okResult`.) -/
theorem claim_C1_unlinked_provider_rejected
    (st : Store) (email tpid tpuid userId : String) (credOk : Bool) (now : Nat)
    (hU : st.users.contains email = true) :
    (check_auth_method_linked st email ("email") = false →
      sign_in_post st email credOk now = (AuthResult.generalError emailDenialMsg, st)) ∧
    (check_auth_method_linked st email tpid = false →
      sign_in_up_post st tpid email tpuid credOk now = (AuthResult.generalError (tpDenialMsg tpid), st)) ∧
    (check_auth_method_linked st email ("magic_link") = false →
      consume_code_post st true email userId now = (AuthResult.generalError magicDenialMsg, st) ∧
      ∀ anyOk : Bool, (consume_code_post st anyOk email userId now).1 ≠ AuthResult.okResult) := by
  have hU' : email ∈ st.users := by simpa using hU
  refine ⟨fun h => ?_, fun h => ?_, fun h => ⟨?_, ?_⟩⟩
  · simp [sign_in_post, hU', h]
  · simp [sign_in_up_post, hU', h]
  · simp [consume_code_post, hU', h]
  · intro anyOk
    cases anyOk with
    | true => simp [consume_code_post, hU', h]
    | false => simp [consume_code_post]

/-- C1 witness: a store containing only the user `a@x.com` with no bindings
rejects all three flows. -/
theorem claim_C1_unlinked_provider_rejected_witness :
    (Store.mk [("a@x.com")] [] []).users.contains ("a@x.com") = true ∧
    ((check_auth_method_linked (Store.mk [("a@x.com")] [] []) ("a@x.com") ("email") = false →
       sign_in_post (Store.mk [("a@x.com")] [] []) ("a@x.com") true 0 =
         (AuthResult.generalError emailDenialMsg, Store.mk [("a@x.com")] [] [])) ∧
     (check_auth_method_linked (Store.mk [("a@x.com")] [] []) ("a@x.com") ("google") = false →
       sign_in_up_post (Store.mk [("a@x.com")] [] []) ("google") ("a@x.com") ("g1") true 0 =
         (AuthResult.generalError (tpDenialMsg ("google")), Store.mk [("a@x.com")] [] [])) ∧
     (check_auth_method_linked (Store.mk [("a@x.com")] [] []) ("a@x.com") ("magic_link") = false →
       consume_code_post (Store.mk [("a@x.com")] [] []) true ("a@x.com") ("u1") 0 =
         (AuthResult.generalError magicDenialMsg, Store.mk [("a@x.com")] [] []) ∧
       ∀ anyOk : Bool,
         (consume_code_post (Store.mk [("a@x.com")] [] []) anyOk ("a@x.com") ("u1") 0).1 ≠
           AuthResult.okResult)) :=
  ⟨by decide,
   claim_C1_unlinked_provider_rejected (Store.mk [("a@x.com")] [] []) ("a@x.com")
     ("google") ("g1") ("u1") true 0 (by decide)⟩

/-! ## Claim C2 (corrected): auto-creation happens for OAuth and magic link, not email -/

/-- C2 counterexample: an email/password sign-in for a brand-new email never
succeeds and never creates a binding: when the underlying credential check
fails the provider rejection is passed through, and when it succeeds the
handler crashes on `None.mark_used()`; in neither case is a user or a
verified binding created. -/
theorem claim_C2_counterexample :
    (sign_in_post (Store.mk [] [] []) ("new@x.com") true 0).1 ≠ AuthResult.okResult ∧
    (sign_in_post (Store.mk [] [] []) ("new@x.com") true 0).2.authProviders = [] ∧
    (sign_in_post (Store.mk [] [] []) ("new@x.com") false 0).1 ≠ AuthResult.okResult ∧
    (sign_in_post (Store.mk [] [] []) ("new@x.com") false 0).2.authProviders = [] := by
  decide

/-- `get_or_create_user` never touches the binding table. -/
theorem get_or_create_user_authProviders (st : Store) (email : String) :
    (get_or_create_user st email).authProviders = st.authProviders := by
  unfold get_or_create_user
  split <;> rfl

/-- `get_or_create_user` never touches the token table. -/
theorem get_or_create_user_linkTokens (st : Store) (email : String) :
    (get_or_create_user st email).linkTokens = st.linkTokens := by
  unfold get_or_create_user
  split <;> rfl

/-- `find?` over a one-element extension whose front all fails the predicate. -/
theorem find?_append_single {α : Type} (l : List α) (b : α) (p : α → Bool)
    (h : ∀ a ∈ l, p a = false) :
    (l ++ [b]).find? p = if p b then some b else none := by
  induction l with
  | nil =>
    cases hpb : p b <;> simp [List.find?, hpb]
  | cons a rest ih =>
    have ha : p a = false := h a (by simp)
    simp only [List.cons_append, List.find?, ha]
    exact ih (fun x hx => h x (by simp [hx]))

/-- `markUsedFirst` over a one-element extension whose front all fails the
predicate. -/
theorem markUsedFirst_append_single (l : List AuthProviderRec) (b : AuthProviderRec)
    (p : AuthProviderRec → Bool) (now : Nat) (h : ∀ a ∈ l, p a = false) :
    markUsedFirst (l ++ [b]) p now =
      l ++ [if p b then { b with lastUsed := some now } else b] := by
  induction l with
  | nil =>
    simp only [List.nil_append, markUsedFirst]
    split <;> simp [*]
  | cons a rest ih =>
    have ha : p a = false := h a (by simp)
    simp only [List.cons_append, markUsedFirst, ha, Bool.false_eq_true, if_false, List.append_eq]
    rw [ih (fun x hx => h x (by simp [hx]))]

/-- When no binding row belongs to `email`, the post-sign-up flow of
`link_auth_provider` after `get_or_create_user` appends exactly one fresh
row carrying `auto_verify`. -/
theorem link_flow_appends (st : Store) (email prov pe : String) (puid : Option String)
    (hB : ∀ a ∈ st.authProviders, a.userEmail ≠ email) :
    link_auth_provider (get_or_create_user st email) email prov pe puid true =
      { get_or_create_user st email with
          authProviders := st.authProviders ++ [⟨email, prov, puid, pe, true, none⟩] } := by
  have hap := get_or_create_user_authProviders st email
  have hfind : (get_or_create_user st email).authProviders.find?
      (fun a => a.userEmail == email && a.provider == prov) = none := by
    rw [hap]
    exact List.find?_eq_none.mpr (fun a ha => by simp [hB a ha])
  unfold link_auth_provider
  rw [hfind, hap]

/-- C2 amended: sign-in via OAuth or magic link for a brand-new email, when
the original provider flow succeeds, authenticates and creates exactly one
verified binding for (the newly created user, that provider kind); the
email/password path performs no auto-creation (see the counterexample). -/
theorem claim_C2_amended_autocreate_oauth_magic
    (st : Store) (email tpid tpuid userId : String) (now : Nat)
    (hU : st.users.contains email = false)
    (hB : ∀ a ∈ st.authProviders, a.userEmail ≠ email) :
    ((sign_in_up_post st tpid email tpuid true now).1 = AuthResult.okResult ∧
     ((sign_in_up_post st tpid email tpuid true now).2.authProviders.filter
        (fun a => a.userEmail == email && a.provider == tpid && a.is_verified)).length = 1 ∧
     (sign_in_up_post st tpid email tpuid true now).2.users.contains email = true) ∧
    ((consume_code_post st true email userId now).1 = AuthResult.okResult ∧
     ((consume_code_post st true email userId now).2.authProviders.filter
        (fun a => a.userEmail == email && a.provider == "magic_link" && a.is_verified)).length = 1 ∧
     (consume_code_post st true email userId now).2.users.contains email = true) := by
  have hU' : email ∉ st.users := by simpa using hU
  have hBfalse : ∀ (prov : String) (a : AuthProviderRec), a ∈ st.authProviders →
      (a.userEmail == email && a.provider == prov) = false := by
    intro prov a ha
    simp [hB a ha]
  have hgu : get_or_create_user st email = { st with users := st.users ++ [email] } := by
    unfold get_or_create_user
    rw [if_neg (by simp [hU'])]
  have core : ∀ (prov : String) (puid : Option String),
      link_auth_provider (get_or_create_user st email) email prov email puid true =
        Store.mk (st.users ++ [email])
          (st.authProviders ++ [AuthProviderRec.mk email prov puid email true none])
          st.linkTokens := by
    intro prov puid
    rw [link_flow_appends st email prov email puid hB, hgu]
  have hfind : ∀ (prov : String) (puid : Option String),
      (st.authProviders ++ [AuthProviderRec.mk email prov puid email true none]).find?
        (fun a => a.userEmail == email && a.provider == prov) =
        some (AuthProviderRec.mk email prov puid email true none) := by
    intro prov puid
    rw [find?_append_single _ _ _ (hBfalse prov)]
    simp
  have hmark : ∀ (prov : String) (puid : Option String),
      markUsedFirst (st.authProviders ++ [AuthProviderRec.mk email prov puid email true none])
        (fun a => a.userEmail == email && a.provider == prov) now =
        st.authProviders ++ [AuthProviderRec.mk email prov puid email true (some now)] := by
    intro prov puid
    rw [markUsedFirst_append_single _ _ _ _ (hBfalse prov)]
    simp
  have hfilter : ∀ (prov : String) (puid : Option String),
      ((st.authProviders ++ [AuthProviderRec.mk email prov puid email true (some now)]).filter
        (fun a => a.userEmail == email && a.provider == prov && a.is_verified)).length = 1 := by
    intro prov puid
    rw [List.filter_append]
    have hnil : st.authProviders.filter
        (fun a => a.userEmail == email && a.provider == prov && a.is_verified) = [] := by
      rw [List.filter_eq_nil_iff]
      intro a ha
      simp [hB a ha]
    rw [hnil]
    simp [List.filter]
  have heqT : sign_in_up_post st tpid email tpuid true now =
      (AuthResult.okResult,
       Store.mk (st.users ++ [email])
         (st.authProviders ++ [AuthProviderRec.mk email tpid (some tpuid) email true (some now)])
         st.linkTokens) := by
    simp [sign_in_up_post, hU', core tpid (some tpuid), hfind tpid (some tpuid),
          hmark tpid (some tpuid)]
  have heqM : consume_code_post st true email userId now =
      (AuthResult.okResult,
       Store.mk (st.users ++ [email])
         (st.authProviders ++
           [AuthProviderRec.mk email ("magic_link") (some userId) email true (some now)])
         st.linkTokens) := by
    simp [consume_code_post, hU', core ("magic_link") (some userId),
          hfind ("magic_link") (some userId), hmark ("magic_link") (some userId)]
  refine ⟨⟨?_, ?_, ?_⟩, ⟨?_, ?_, ?_⟩⟩
  · rw [heqT]
  · rw [heqT]
    exact hfilter tpid (some tpuid)
  · rw [heqT]
    simp
  · rw [heqM]
  · rw [heqM]
    exact hfilter ("magic_link") (some userId)
  · rw [heqM]
    simp

/-- C2 amended witness: an OAuth sign-in (`google`) and a magic-link
consumption for a brand-new email on an empty store. -/
theorem claim_C2_amended_autocreate_oauth_magic_witness :
    ((Store.mk [] [] []).users.contains ("n@x.com") = false ∧
     ∀ a ∈ (Store.mk [] [] []).authProviders, a.userEmail ≠ ("n@x.com")) ∧
    (((sign_in_up_post (Store.mk [] [] []) ("google") ("n@x.com") ("g1") true 5).1 =
        AuthResult.okResult ∧
      ((sign_in_up_post (Store.mk [] [] []) ("google") ("n@x.com") ("g1") true 5).2.authProviders.filter
         (fun a => a.userEmail == ("n@x.com") && a.provider == ("google") && a.is_verified)).length = 1 ∧
      (sign_in_up_post (Store.mk [] [] []) ("google") ("n@x.com") ("g1") true 5).2.users.contains ("n@x.com") = true) ∧
     ((consume_code_post (Store.mk [] [] []) true ("n@x.com") ("u1") 5).1 = AuthResult.okResult ∧
      ((consume_code_post (Store.mk [] [] []) true ("n@x.com") ("u1") 5).2.authProviders.filter
         (fun a => a.userEmail == ("n@x.com") && a.provider == "magic_link" && a.is_verified)).length = 1 ∧
      (consume_code_post (Store.mk [] [] []) true ("n@x.com") ("u1") 5).2.users.contains ("n@x.com") = true)) :=
  ⟨⟨by decide, by simp⟩,
   claim_C2_amended_autocreate_oauth_magic (Store.mk [] [] []) ("n@x.com") ("google")
     ("g1") ("u1") 5 (by decide) (by simp)⟩

/-! ## Claim C6 (corrected): expiry rejection, and the email-only lookup of
the password-set path -/

/-- When every match of the predicate is the given element, `find?` returns
exactly that element as soon as it is present and matches. -/
theorem find?_eq_some_of_unique {α : Type} (l : List α) (p : α → Bool) (a : α)
    (ha : a ∈ l) (hpa : p a = true) (huniq : ∀ b ∈ l, p b = true → b = a) :
    l.find? p = some a := by
  induction l with
  | nil => cases ha
  | cons x rest ih =>
    by_cases hx : p x = true
    · have hxa : x = a := huniq x (List.mem_cons_self x rest) hx
      subst hxa
      exact List.find?_cons_of_pos rest hx
    · rw [List.find?_cons_of_neg rest hx]
      have ha' : a ∈ rest := by
        cases List.mem_cons.mp ha with
        | inl h => exact absurd (h ▸ hpa) hx
        | inr h => exact h
      exact ih ha' (fun b hb hpb => huniq b (List.mem_cons_of_mem x hb) hpb)

/-- C6 counterexample: an expired, unused `google` linking token (expired at
time 10, attempted at time 20) is rejected by the password-set linking
operation with the invalid-token denial, not the expiry denial the claim
states for both operations: that operation's lookup is restricted to
`provider='email'` tokens. -/
theorem claim_C6_counterexample :
    set_password_for_linking
        (Store.mk [("u@x.com")] [] [⟨("u@x.com"), ("google"), ("tokG"), 10, false⟩])
        (some ("tokG")) (some ("pw")) 20 =
      (SetPwResult.errorResp ("Invalid token"),
       Store.mk [("u@x.com")] [] [⟨("u@x.com"), ("google"), ("tokG"), 10, false⟩]) ∧
    ¬ (set_password_for_linking
        (Store.mk [("u@x.com")] [] [⟨("u@x.com"), ("google"), ("tokG"), 10, false⟩])
        (some ("tokG")) (some ("pw")) 20 =
       (SetPwResult.errorResp ("Token has expired"),
        Store.mk [("u@x.com")] [] [⟨("u@x.com"), ("google"), ("tokG"), 10, false⟩])) := by
  decide

/-- C6 amended: every expired, unused linking token (its value unique in
the token table, per the schema's unique token column) is rejected by both
consumption operations with the store unchanged — so it stays unused and no
binding is created or verified.  The OAuth callback rejects it with the
expiry denial for any provider; the password-set operation, whose lookup is
restricted to `provider='email'` tokens, rejects it with the expiry denial
for email tokens and with the invalid-token denial for all others. -/
theorem claim_C6_amended_expired_token_rejected
    (st : Store) (provider pw tokenVal : String) (info : OAuthUserInfo) (now : Nat)
    (lt : LinkingTokenRec)
    (htv : tokenVal ≠ "") (hpw : pw ≠ "")
    (hfind : st.linkTokens.find? (fun t => t.token == tokenVal && !t.is_used) = some lt)
    (hexp : lt.expires_at < now)
    (huniq : ∀ t ∈ st.linkTokens, t.token = tokenVal → t = lt) :
    oauth_callback st provider tokenVal info now =
      (CallbackResult.errorMsg ("Linking token has expired"), st) ∧
    (set_password_for_linking st (some tokenVal) (some pw) now).1 ≠ SetPwResult.successResp ∧
    (set_password_for_linking st (some tokenVal) (some pw) now).2 = st ∧
    (lt.provider = "email" →
      set_password_for_linking st (some tokenVal) (some pw) now =
        (SetPwResult.errorResp ("Token has expired"), st)) ∧
    (lt.provider ≠ "email" →
      set_password_for_linking st (some tokenVal) (some pw) now =
        (SetPwResult.errorResp ("Invalid token"), st)) := by
  have hmem : lt ∈ st.linkTokens := List.mem_of_find?_eq_some hfind
  have hplt : (lt.token == tokenVal && !lt.is_used) = true := by
    have hp := List.find?_some hfind
    simpa using hp
  have hltk : lt.token = tokenVal := beq_iff_eq.mp (Bool.and_eq_true_iff.mp hplt).1
  have hOA : oauth_callback st provider tokenVal info now =
      (CallbackResult.errorMsg ("Linking token has expired"), st) := by
    unfold oauth_callback
    rw [hfind]
    simp [hexp]
  have hEq : lt.provider = "email" →
      set_password_for_linking st (some tokenVal) (some pw) now =
        (SetPwResult.errorResp ("Token has expired"), st) := by
    intro hem
    have hfindE : st.linkTokens.find?
        (fun t => t.token == tokenVal && t.provider == "email" && !t.is_used) = some lt := by
      refine find?_eq_some_of_unique _ _ lt hmem ?_ ?_
      · simp [hltk, hem, (Bool.and_eq_true_iff.mp hplt).2]
      · intro b hb hpb
        have h1 := (Bool.and_eq_true_iff.mp hpb).1
        exact huniq b hb (beq_iff_eq.mp (Bool.and_eq_true_iff.mp h1).1)
    unfold set_password_for_linking
    rw [if_neg (by simp [strOptFalsy, htv, hpw])]
    simp only [Option.getD]
    rw [hfindE]
    simp [hexp]
  have hNe : lt.provider ≠ "email" →
      set_password_for_linking st (some tokenVal) (some pw) now =
        (SetPwResult.errorResp ("Invalid token"), st) := by
    intro hem
    have hfindN : st.linkTokens.find?
        (fun t => t.token == tokenVal && t.provider == "email" && !t.is_used) = none := by
      refine List.find?_eq_none.mpr (fun t ht hp => ?_)
      have h1 := (Bool.and_eq_true_iff.mp hp).1
      have htok : t.token = tokenVal := beq_iff_eq.mp (Bool.and_eq_true_iff.mp h1).1
      have hprov : t.provider = "email" := beq_iff_eq.mp (Bool.and_eq_true_iff.mp h1).2
      have hteq := huniq t ht htok
      exact hem (hteq ▸ hprov)
    unfold set_password_for_linking
    rw [if_neg (by simp [strOptFalsy, htv, hpw])]
    simp only [Option.getD]
    rw [hfindN]
  refine ⟨hOA, ?_, ?_, hEq, hNe⟩
  · by_cases hem : lt.provider = "email"
    · rw [hEq hem]
      simp
    · rw [hNe hem]
      simp
  · by_cases hem : lt.provider = "email"
    · rw [hEq hem]
    · rw [hNe hem]

/-- C6 amended witness: the expired unused `google` token of the
counterexample scenario, where the OAuth callback gives the expiry denial
and the password-set operation the invalid-token denial. -/
theorem claim_C6_amended_expired_token_rejected_witness :
    (("tokG" : String) ≠ "" ∧ ("pw" : String) ≠ "" ∧
     (Store.mk [("u@x.com")] [] [⟨("u@x.com"), ("google"), ("tokG"), 10, false⟩]).linkTokens.find?
        (fun t => t.token == "tokG" && !t.is_used) =
       some ⟨("u@x.com"), ("google"), ("tokG"), 10, false⟩ ∧
     (⟨("u@x.com"), ("google"), ("tokG"), 10, false⟩ : LinkingTokenRec).expires_at < 20 ∧
     ∀ t ∈ (Store.mk [("u@x.com")] [] [⟨("u@x.com"), ("google"), ("tokG"), 10, false⟩]).linkTokens,
       t.token = ("tokG") → t = ⟨("u@x.com"), ("google"), ("tokG"), 10, false⟩) ∧
    (oauth_callback (Store.mk [("u@x.com")] [] [⟨("u@x.com"), ("google"), ("tokG"), 10, false⟩])
        ("google") ("tokG") (OAuthUserInfo.mk ("g1") ("u@x.com")) 20 =
      (CallbackResult.errorMsg ("Linking token has expired"),
       Store.mk [("u@x.com")] [] [⟨("u@x.com"), ("google"), ("tokG"), 10, false⟩]) ∧
     (set_password_for_linking
        (Store.mk [("u@x.com")] [] [⟨("u@x.com"), ("google"), ("tokG"), 10, false⟩])
        (some ("tokG")) (some ("pw")) 20).1 ≠ SetPwResult.successResp ∧
     (set_password_for_linking
        (Store.mk [("u@x.com")] [] [⟨("u@x.com"), ("google"), ("tokG"), 10, false⟩])
        (some ("tokG")) (some ("pw")) 20).2 =
       Store.mk [("u@x.com")] [] [⟨("u@x.com"), ("google"), ("tokG"), 10, false⟩] ∧
     ((⟨("u@x.com"), ("google"), ("tokG"), 10, false⟩ : LinkingTokenRec).provider = ("email") →
       set_password_for_linking
          (Store.mk [("u@x.com")] [] [⟨("u@x.com"), ("google"), ("tokG"), 10, false⟩])
          (some ("tokG")) (some ("pw")) 20 =
         (SetPwResult.errorResp ("Token has expired"),
          Store.mk [("u@x.com")] [] [⟨("u@x.com"), ("google"), ("tokG"), 10, false⟩])) ∧
     ((⟨("u@x.com"), ("google"), ("tokG"), 10, false⟩ : LinkingTokenRec).provider ≠ ("email") →
       set_password_for_linking
          (Store.mk [("u@x.com")] [] [⟨("u@x.com"), ("google"), ("tokG"), 10, false⟩])
          (some ("tokG")) (some ("pw")) 20 =
         (SetPwResult.errorResp ("Invalid token"),
          Store.mk [("u@x.com")] [] [⟨("u@x.com"), ("google"), ("tokG"), 10, false⟩]))) :=
  ⟨⟨by decide, by decide, by decide, by decide, by decide⟩,
   claim_C6_amended_expired_token_rejected
     (Store.mk [("u@x.com")] [] [⟨("u@x.com"), ("google"), ("tokG"), 10, false⟩])
     ("google") ("pw") ("tokG") (OAuthUserInfo.mk ("g1") ("u@x.com")) 20
     ⟨("u@x.com"), ("google"), ("tokG"), 10, false⟩
     (by decide) (by decide) (by decide) (by decide) (by decide)⟩

/-! ## Claim C7: used tokens are never consumed again; `is_used` is monotone -/

/-- `link_auth_provider` never touches the token table. -/
theorem link_auth_provider_linkTokens (st : Store) (ue p pe : String)
    (puid : Option String) (av : Bool) :
    (link_auth_provider st ue p pe puid av).linkTokens = st.linkTokens := by
  unfold link_auth_provider
  split
  · split <;> rfl
  · rfl

/-- C7: an already-used linking token is rejected by both consumption
operations with the invalid-token denial and no state change; moreover each
consumption operation rewrites the token table by a pointwise update that
preserves token values and never clears `is_used`, so a token is consumed at
most once and `is_used` only ever transitions false to true. -/
theorem claim_C7_used_token_idempotent_rejection
    (st : Store) (provider pw tokenVal : String) (info : OAuthUserInfo) (now : Nat)
    (htv : tokenVal ≠ "") (hpw : pw ≠ "")
    (hused : ∀ t ∈ st.linkTokens, t.token = tokenVal → t.is_used = true) :
    oauth_callback st provider tokenVal info now =
      (CallbackResult.errorMsg ("Invalid or expired linking token"), st) ∧
    set_password_for_linking st (some tokenVal) (some pw) now =
      (SetPwResult.errorResp ("Invalid token"), st) ∧
    (∀ (st2 : Store) (p2 tv2 : String) (i2 : OAuthUserInfo) (n2 : Nat),
      ∃ w : LinkingTokenRec → LinkingTokenRec,
        ((oauth_callback st2 p2 tv2 i2 n2).2).linkTokens = st2.linkTokens.map w ∧
        (∀ a, (w a).token = a.token) ∧
        (∀ a, a.is_used = true → (w a).is_used = true)) ∧
    (∀ (st2 : Store) (tv2 pw2 : Option String) (n2 : Nat),
      ∃ w : LinkingTokenRec → LinkingTokenRec,
        ((set_password_for_linking st2 tv2 pw2 n2).2).linkTokens = st2.linkTokens.map w ∧
        (∀ a, (w a).token = a.token) ∧
        (∀ a, a.is_used = true → (w a).is_used = true)) := by
  have hIdW : ∀ (l : List LinkingTokenRec),
      l = l.map id ∧ (∀ a : LinkingTokenRec, (id a).token = a.token) ∧
      (∀ a : LinkingTokenRec, a.is_used = true → (id a).is_used = true) :=
    fun l => ⟨by simp, fun a => rfl, fun a h => h⟩
  have hMarkW : ∀ (l : List LinkingTokenRec) (tv : String),
      markTokenUsed l tv =
        l.map (fun t => if t.token == tv then { t with is_used := true } else t) ∧
      (∀ a : LinkingTokenRec,
        ((fun t => if t.token == tv then { t with is_used := true } else t) a).token = a.token) ∧
      (∀ a : LinkingTokenRec, a.is_used = true →
        ((fun t => if t.token == tv then { t with is_used := true } else t) a).is_used = true) := by
    intro l tv
    refine ⟨rfl, ?_, ?_⟩
    · intro a
      by_cases h : (a.token == tv) = true <;> simp [h]
    · intro a ha
      by_cases h : (a.token == tv) = true <;> simp [h, ha]
  have hfindN : st.linkTokens.find? (fun t => t.token == tokenVal && !t.is_used) = none := by
    refine List.find?_eq_none.mpr (fun t ht => ?_)
    by_cases htok : t.token = tokenVal
    · simp [htok, hused t ht htok]
    · simp [htok]
  have hfindNE : st.linkTokens.find?
      (fun t => t.token == tokenVal && t.provider == "email" && !t.is_used) = none := by
    refine List.find?_eq_none.mpr (fun t ht => ?_)
    by_cases htok : t.token = tokenVal
    · simp [htok, hused t ht htok]
    · simp [htok]
  refine ⟨?_, ?_, ?_, ?_⟩
  · unfold oauth_callback
    rw [hfindN]
  · unfold set_password_for_linking
    rw [if_neg (by simp [strOptFalsy, htv, hpw])]
    simp only [Option.getD]
    rw [hfindNE]
  · intro st2 p2 tv2 i2 n2
    unfold oauth_callback
    cases hf : st2.linkTokens.find? (fun t => t.token == tv2 && !t.is_used) with
    | none => exact ⟨id, (hIdW st2.linkTokens).1, (hIdW st2.linkTokens).2.1, (hIdW st2.linkTokens).2.2⟩
    | some lt =>
      by_cases hexp : lt.expires_at < n2
      · simp only [hexp, if_pos]
        exact ⟨id, (hIdW st2.linkTokens).1, (hIdW st2.linkTokens).2.1, (hIdW st2.linkTokens).2.2⟩
      · by_cases hprov : (p2 == "google" || p2 == "linkedin") = true
        · simp only [hexp, if_neg, hprov, if_pos]
          refine ⟨fun t => if t.token == tv2 then { t with is_used := true } else t, ?_, ?_, ?_⟩
          · show markTokenUsed (link_auth_provider st2 lt.userEmail p2 i2.email (some i2.extId) true).linkTokens tv2 = _
            rw [link_auth_provider_linkTokens]
            exact (hMarkW st2.linkTokens tv2).1
          · exact (hMarkW st2.linkTokens tv2).2.1
          · exact (hMarkW st2.linkTokens tv2).2.2
        · simp only [hexp, if_neg, hprov]
          exact ⟨id, (hIdW st2.linkTokens).1, (hIdW st2.linkTokens).2.1, (hIdW st2.linkTokens).2.2⟩
  · intro st2 tv2 pw2 n2
    unfold set_password_for_linking
    by_cases hreq : (strOptFalsy tv2 || strOptFalsy pw2) = true
    · rw [if_pos hreq]
      exact ⟨id, (hIdW st2.linkTokens).1, (hIdW st2.linkTokens).2.1, (hIdW st2.linkTokens).2.2⟩
    · rw [if_neg hreq]
      dsimp only
      cases hf : st2.linkTokens.find?
          (fun t => t.token == tv2.getD "" && t.provider == "email" && !t.is_used) with
      | none =>
        exact ⟨id, (hIdW st2.linkTokens).1, (hIdW st2.linkTokens).2.1, (hIdW st2.linkTokens).2.2⟩
      | some lt =>
        by_cases hexp : lt.expires_at < n2
        · simp only [hexp, if_pos]
          exact ⟨id, (hIdW st2.linkTokens).1, (hIdW st2.linkTokens).2.1, (hIdW st2.linkTokens).2.2⟩
        · simp only [hexp, if_neg]
          refine ⟨fun t => if t.token == tv2.getD "" then { t with is_used := true } else t, ?_, ?_, ?_⟩
          · show markTokenUsed (link_auth_provider st2 lt.userEmail ("email") lt.userEmail none true).linkTokens (tv2.getD "") = _
            rw [link_auth_provider_linkTokens]
            exact (hMarkW st2.linkTokens (tv2.getD "")).1
          · exact (hMarkW st2.linkTokens (tv2.getD "")).2.1
          · exact (hMarkW st2.linkTokens (tv2.getD "")).2.2

/-- C7 witness: a store whose only token is already used. -/
theorem claim_C7_used_token_idempotent_rejection_witness :
    (("tokU" : String) ≠ "" ∧ ("pw" : String) ≠ "" ∧
     ∀ t ∈ (Store.mk [("u@x.com")] [] [⟨("u@x.com"), ("google"), ("tokU"), 1000, true⟩]).linkTokens,
       t.token = ("tokU") → t.is_used = true) ∧
    (oauth_callback (Store.mk [("u@x.com")] [] [⟨("u@x.com"), ("google"), ("tokU"), 1000, true⟩])
        ("google") ("tokU") (OAuthUserInfo.mk ("g1") ("u@x.com")) 5 =
      (CallbackResult.errorMsg ("Invalid or expired linking token"),
       Store.mk [("u@x.com")] [] [⟨("u@x.com"), ("google"), ("tokU"), 1000, true⟩]) ∧
     set_password_for_linking
        (Store.mk [("u@x.com")] [] [⟨("u@x.com"), ("google"), ("tokU"), 1000, true⟩])
        (some ("tokU")) (some ("pw")) 5 =
      (SetPwResult.errorResp ("Invalid token"),
       Store.mk [("u@x.com")] [] [⟨("u@x.com"), ("google"), ("tokU"), 1000, true⟩]) ∧
     (∀ (st2 : Store) (p2 tv2 : String) (i2 : OAuthUserInfo) (n2 : Nat),
       ∃ w : LinkingTokenRec → LinkingTokenRec,
         ((oauth_callback st2 p2 tv2 i2 n2).2).linkTokens = st2.linkTokens.map w ∧
         (∀ a, (w a).token = a.token) ∧
         (∀ a, a.is_used = true → (w a).is_used = true)) ∧
     (∀ (st2 : Store) (tv2 pw2 : Option String) (n2 : Nat),
       ∃ w : LinkingTokenRec → LinkingTokenRec,
         ((set_password_for_linking st2 tv2 pw2 n2).2).linkTokens = st2.linkTokens.map w ∧
         (∀ a, (w a).token = a.token) ∧
         (∀ a, a.is_used = true → (w a).is_used = true))) :=
  ⟨⟨by decide, by decide, by decide⟩,
   claim_C7_used_token_idempotent_rejection
     (Store.mk [("u@x.com")] [] [⟨("u@x.com"), ("google"), ("tokU"), 1000, true⟩])
     ("google") ("pw") ("tokU") (OAuthUserInfo.mk ("g1") ("u@x.com")) 5
     (by decide) (by decide) (by decide)⟩

/-! ## Claim C8: unlink never removes the last verified method -/

/-- Splitting a count along a second predicate. -/
theorem countP_le_split {α : Type} (l : List α) (q r : α → Bool) :
    l.countP q ≤ l.countP (fun a => q a && r a) + l.countP (fun a => q a && !r a) := by
  induction l with
  | nil => simp
  | cons a rest ih =>
    simp only [List.countP_cons]
    cases hq : q a <;> cases hr : r a <;> simp [hq, hr] <;> omega

/-- A pairwise-incompatible predicate matches at most one list element. -/
theorem countP_le_one_of_pairwise {α : Type} (l : List α) (S : α → Bool) (R : α → α → Prop)
    (hp : List.Pairwise R l) (h : ∀ a b, S a = true → S b = true → R a b → False) :
    l.countP S ≤ 1 := by
  induction hp with
  | nil => simp
  | @cons a rest ha hrest ih =>
    simp only [List.countP_cons]
    cases hS : S a
    · simpa using ih
    · have hz : rest.countP S = 0 := by
        refine List.countP_eq_zero.mpr (fun b hb hSb => ?_)
        exact h a b hS hSb (ha b hb)
      simp [hz]

/-- C8: the unlink operation is rejected, deleting nothing, whenever the
user has at most one verified binding; and under the schema uniqueness
invariant (at most one binding per (user, provider) pair), a user with at
least one verified binding still has at least one after any unlink, so the
verified count never reaches zero through unlink. -/
theorem claim_C8_unlink_never_zero
    (st : Store) (u : String) (provider : Option String)
    (hinv : List.Pairwise
        (fun a b => ¬(a.userEmail = b.userEmail ∧ a.provider = b.provider)) st.authProviders)
    (hpos : 1 ≤ verified_count st u) :
    (verified_count st u ≤ 1 →
      (unlink_auth_method st u provider).1 ≠ UnlinkResult.successResp ∧
      (unlink_auth_method st u provider).2 = st) ∧
    1 ≤ verified_count (unlink_auth_method st u provider).2 u := by
  by_cases hreq : strOptFalsy provider = true
  · have he : unlink_auth_method st u provider =
        (UnlinkResult.errorResp ("Provider is required"), st) := by
      unfold unlink_auth_method
      rw [if_pos hreq]
    rw [he]
    exact ⟨fun _ => ⟨by simp, rfl⟩, hpos⟩
  · by_cases hle : verified_count st u ≤ 1
    · have he : unlink_auth_method st u provider =
          (UnlinkResult.errorResp
            ("You must have at least one authentication method linked to your account"), st) := by
        unfold unlink_auth_method
        rw [if_neg hreq]
        dsimp only
        rw [if_pos hle]
      rw [he]
      exact ⟨fun _ => ⟨by simp, rfl⟩, hpos⟩
    · have he : unlink_auth_method st u provider =
          (UnlinkResult.successResp,
           { st with authProviders :=
               st.authProviders.filter (fun a => !(a.userEmail == u && a.provider == provider.getD "")) }) := by
        unfold unlink_auth_method
        rw [if_neg hreq]
        dsimp only
        rw [if_neg hle]
      refine ⟨fun hc => absurd hc hle, ?_⟩
      rw [he]
      have h2 : 2 ≤ verified_count st u := by omega
      set A : AuthProviderRec → Bool := fun a => a.userEmail == u && a.is_verified with hA
      set D : AuthProviderRec → Bool :=
        fun a => a.userEmail == u && a.provider == provider.getD "" with hD
      have hcount : verified_count
          { st with authProviders := st.authProviders.filter (fun a => !(D a)) } u =
          st.authProviders.countP (fun a => A a && !(D a)) := by
        unfold verified_count
        rw [← List.countP_eq_length_filter]
        rw [List.countP_filter]
      have hsplit := countP_le_split st.authProviders A D
      have hone : st.authProviders.countP (fun a => A a && D a) ≤ 1 := by
        refine le_trans (List.countP_mono_left (fun a _ (ha : (A a && D a) = true) => ?_))
          (countP_le_one_of_pairwise st.authProviders D _ hinv ?_)
        · exact (Bool.and_eq_true_iff.mp ha).2
        · intro a b hSa hSb hR
          apply hR
          have ha' := Bool.and_eq_true_iff.mp hSa
          have hb' := Bool.and_eq_true_iff.mp hSb
          constructor
          · rw [beq_iff_eq.mp ha'.1, beq_iff_eq.mp hb'.1]
          · rw [beq_iff_eq.mp ha'.2, beq_iff_eq.mp hb'.2]
      have hcA : verified_count st u = st.authProviders.countP A := by
        unfold verified_count
        rw [← List.countP_eq_length_filter]
      rw [hcount]
      rw [hcA] at h2
      omega

/-- C8 witness: a user with two verified bindings unlinking one of them,
and the rejection when only one remains. -/
theorem claim_C8_unlink_never_zero_witness :
    (List.Pairwise
       (fun a b : AuthProviderRec => ¬(a.userEmail = b.userEmail ∧ a.provider = b.provider))
       (Store.mk [("u@x.com")]
         [⟨("u@x.com"), ("email"), none, ("u@x.com"), true, none⟩,
          ⟨("u@x.com"), ("google"), some ("g1"), ("u@x.com"), true, none⟩] []).authProviders ∧
     1 ≤ verified_count
       (Store.mk [("u@x.com")]
         [⟨("u@x.com"), ("email"), none, ("u@x.com"), true, none⟩,
          ⟨("u@x.com"), ("google"), some ("g1"), ("u@x.com"), true, none⟩] []) ("u@x.com")) ∧
    ((verified_count
        (Store.mk [("u@x.com")]
          [⟨("u@x.com"), ("email"), none, ("u@x.com"), true, none⟩,
           ⟨("u@x.com"), ("google"), some ("g1"), ("u@x.com"), true, none⟩] []) ("u@x.com") ≤ 1 →
      (unlink_auth_method
        (Store.mk [("u@x.com")]
          [⟨("u@x.com"), ("email"), none, ("u@x.com"), true, none⟩,
           ⟨("u@x.com"), ("google"), some ("g1"), ("u@x.com"), true, none⟩] [])
        ("u@x.com") (some ("google"))).1 ≠ UnlinkResult.successResp ∧
      (unlink_auth_method
        (Store.mk [("u@x.com")]
          [⟨("u@x.com"), ("email"), none, ("u@x.com"), true, none⟩,
           ⟨("u@x.com"), ("google"), some ("g1"), ("u@x.com"), true, none⟩] [])
        ("u@x.com") (some ("google"))).2 =
        Store.mk [("u@x.com")]
          [⟨("u@x.com"), ("email"), none, ("u@x.com"), true, none⟩,
           ⟨("u@x.com"), ("google"), some ("g1"), ("u@x.com"), true, none⟩] []) ∧
     1 ≤ verified_count
       ((unlink_auth_method
          (Store.mk [("u@x.com")]
            [⟨("u@x.com"), ("email"), none, ("u@x.com"), true, none⟩,
             ⟨("u@x.com"), ("google"), some ("g1"), ("u@x.com"), true, none⟩] [])
          ("u@x.com") (some ("google"))).2) ("u@x.com")) :=
  ⟨⟨by decide, by decide⟩,
   claim_C8_unlink_never_zero
     (Store.mk [("u@x.com")]
       [⟨("u@x.com"), ("email"), none, ("u@x.com"), true, none⟩,
        ⟨("u@x.com"), ("google"), some ("g1"), ("u@x.com"), true, none⟩] [])
     ("u@x.com") (some ("google")) (by decide) (by decide)⟩

/-! ## Claim C5: Markdown fence stripping -/

/-- A prefix of a list is a prefix of any right extension. -/
theorem isPrefixOf_append_r (p xs ys : List Char) (h : p.isPrefixOf xs = true) :
    p.isPrefixOf (xs ++ ys) = true := by
  induction p generalizing xs with
  | nil => simp [List.isPrefixOf]
  | cons a as ih =>
    cases xs with
    | nil => simp [List.isPrefixOf] at h
    | cons b bs =>
      simp only [List.isPrefixOf, List.cons_append, Bool.and_eq_true] at h ⊢
      exact ⟨h.1, ih bs h.2⟩

/-- `isPrefixOf` is transitive. -/
theorem isPrefixOf_trans (p q x : List Char) (h1 : p.isPrefixOf q = true)
    (h2 : q.isPrefixOf x = true) : p.isPrefixOf x = true := by
  induction p generalizing q x with
  | nil => simp [List.isPrefixOf]
  | cons a as ih =>
    cases q with
    | nil => simp [List.isPrefixOf] at h1
    | cons b bs =>
      cases x with
      | nil => simp [List.isPrefixOf] at h2
      | cons c cs =>
        simp only [List.isPrefixOf, Bool.and_eq_true] at h1 h2 ⊢
        refine ⟨?_, ih bs cs h1.2 h2.2⟩
        exact beq_iff_eq.mpr ((beq_iff_eq.mp h1.1).trans (beq_iff_eq.mp h2.1))

/-- The empty pattern occurs everywhere. -/
theorem occurs_nil_pat (l : List Char) : occurs [] l = true := by
  cases l <;> simp [occurs, List.isPrefixOf]

/-- A pattern that does not occur is in particular not a prefix. -/
theorem not_isPrefixOf_of_occurs_false (p l : List Char) (h : occurs p l = false) :
    p.isPrefixOf l = false := by
  cases l with
  | nil =>
    cases p with
    | nil => simp [occurs] at h
    | cons a as => rfl
  | cons c rest =>
    have := h
    simp only [occurs, Bool.or_eq_false_iff] at this
    exact this.1

/-- Non-occurrence is inherited by the tail. -/
theorem occurs_false_tail (p : List Char) (c : Char) (rest : List Char)
    (h : occurs p (c :: rest) = false) : occurs p rest = false := by
  have := h
  simp only [occurs, Bool.or_eq_false_iff] at this
  exact this.2

/-- Non-occurrence in a concatenation gives non-occurrence on the left. -/
theorem occurs_false_append_left (p xs ys : List Char)
    (h : occurs p (xs ++ ys) = false) : occurs p xs = false := by
  induction xs with
  | nil =>
    cases p with
    | nil => rw [occurs_nil_pat] at h; cases h
    | cons a as => rfl
  | cons x xs' ih =>
    have h1 : p.isPrefixOf (x :: (xs' ++ ys)) = false :=
      not_isPrefixOf_of_occurs_false p _ h
    have h2 : occurs p (xs' ++ ys) = false := occurs_false_tail p x _ h
    show (p.isPrefixOf (x :: xs') || occurs p xs') = false
    rw [ih h2, Bool.or_false]
    by_contra hc
    have hc' : p.isPrefixOf (x :: xs') = true := by
      revert hc
      cases p.isPrefixOf (x :: xs') <;> simp
    have := isPrefixOf_append_r p (x :: xs') ys hc'
    rw [List.cons_append] at this
    rw [this] at h1
    cases h1

/-- Non-occurrence in a concatenation gives non-occurrence on the right. -/
theorem occurs_false_append_right (p xs ys : List Char)
    (h : occurs p (xs ++ ys) = false) : occurs p ys = false := by
  induction xs with
  | nil => exact h
  | cons x xs' ih => exact ih (occurs_false_tail p x _ h)

/-- `pyRStrip` is a left factor of the original list. -/
theorem pyRStrip_append (x : List Char) :
    pyRStrip x ++ (x.reverse.takeWhile isPyWs).reverse = x := by
  unfold pyRStrip
  rw [← List.reverse_append, List.takeWhile_append_dropWhile, List.reverse_reverse]

/-- Stripping whitespace never introduces an occurrence. -/
theorem occurs_false_pyStrip (p l : List Char) (h : occurs p l = false) :
    occurs p (pyStrip l) = false := by
  unfold pyStrip
  have hsplit : l.takeWhile isPyWs ++ l.dropWhile isPyWs = l :=
    List.takeWhile_append_dropWhile isPyWs l
  have h1 : occurs p (l.dropWhile isPyWs) = false := by
    refine occurs_false_append_right p (l.takeWhile isPyWs) _ ?_
    rw [hsplit]
    exact h
  have h2 := pyRStrip_append (l.dropWhile isPyWs)
  refine occurs_false_append_left p _ (((l.dropWhile isPyWs).reverse.takeWhile isPyWs).reverse) ?_
  rw [h2]
  exact h1

/-- `dropWhile` fixes any right extension of a fixed nonempty list. -/
theorem dropWhile_append_eq_self (q : Char → Bool) (xs ys : List Char)
    (hne : xs ≠ []) (hx : xs.dropWhile q = xs) :
    (xs ++ ys).dropWhile q = xs ++ ys := by
  cases xs with
  | nil => exact absurd rfl hne
  | cons a asx =>
    have hqa : q a = false := by
      by_contra hq
      have hq' : q a = true := by
        revert hq
        cases q a <;> simp
      rw [List.dropWhile_cons, if_pos hq'] at hx
      have hlen := congrArg List.length hx
      have hle := (List.dropWhile_sublist (l := asx) q).length_le
      simp at hlen
      omega
    rw [List.cons_append, List.dropWhile_cons, if_neg (by simp [hqa])]

/-- `splitLines` never returns the empty list of lines. -/
theorem splitLines_ne_nil (l : List Char) : splitLines l ≠ [] := by
  cases l with
  | nil => simp [splitLines]
  | cons c rest =>
    by_cases h : c = '\n'
    · simp [splitLines, h]
    · simp only [splitLines, if_neg h]
      cases hr : splitLines rest <;> simp

/-- Splitting after a newline head. -/
theorem splitLines_cons_nl (rest : List Char) :
    splitLines ('\n' :: rest) = [] :: splitLines rest := by
  simp [splitLines]

/-- Splitting after a non-newline head. -/
theorem splitLines_cons_ne (c : Char) (rest : List Char) (h : c ≠ '\n') :
    splitLines (c :: rest) =
      match splitLines rest with
      | [] => [[c]]
      | l :: ls => (c :: l) :: ls := by
  simp [splitLines, h]

/-- A newline-free text is a single line. -/
theorem splitLines_no_nl (xs : List Char) (h : '\n' ∉ xs) : splitLines xs = [xs] := by
  induction xs with
  | nil => rfl
  | cons c rest ih =>
    have hc : c ≠ '\n' := fun he => h (he ▸ List.mem_cons_self c rest)
    rw [splitLines_cons_ne c rest hc, ih (fun hm => h (List.mem_cons_of_mem c hm))]

/-- Prepending a newline-free run extends the first line. -/
theorem splitLines_append_left (xs ys l : List Char) (ls : List (List Char))
    (hx : '\n' ∉ xs) (hys : splitLines ys = l :: ls) :
    splitLines (xs ++ ys) = (xs ++ l) :: ls := by
  induction xs with
  | nil => simpa using hys
  | cons c rest ih =>
    have hc : c ≠ '\n' := fun he => hx (he ▸ List.mem_cons_self c rest)
    rw [List.cons_append, splitLines_cons_ne c _ hc,
        ih (fun hm => hx (List.mem_cons_of_mem c hm))]
    simp

/-- Appending a final newline plus a newline-free run appends one line. -/
theorem splitLines_concat_line (d T0 : List Char) (h : '\n' ∉ T0) :
    splitLines (d ++ '\n' :: T0) = splitLines d ++ [T0] := by
  induction d with
  | nil =>
    rw [List.nil_append, splitLines_cons_nl, splitLines_no_nl T0 h]
    rfl
  | cons c rest ih =>
    by_cases hc : c = '\n'
    · subst hc
      rw [List.cons_append, splitLines_cons_nl, splitLines_cons_nl, ih]
      rfl
    · rw [List.cons_append, splitLines_cons_ne c _ hc, splitLines_cons_ne c rest hc, ih]
      cases hr : splitLines rest with
      | nil => exact absurd hr (splitLines_ne_nil rest)
      | cons l ls => simp

/-- `joinLines` inverts `splitLines`. -/
theorem joinLines_splitLines (s : List Char) : joinLines (splitLines s) = s := by
  induction s with
  | nil => rfl
  | cons c rest ih =>
    by_cases hc : c = '\n'
    · subst hc
      rw [splitLines_cons_nl]
      cases hr : splitLines rest with
      | nil => exact absurd hr (splitLines_ne_nil rest)
      | cons l ls =>
        show [] ++ '\n' :: joinLines (l :: ls) = '\n' :: rest
        rw [List.nil_append, ← hr, ih]
    · rw [splitLines_cons_ne c rest hc]
      cases hr : splitLines rest with
      | nil => exact absurd hr (splitLines_ne_nil rest)
      | cons l ls =>
        cases ls with
        | nil =>
          have hJ : joinLines [l] = rest := by
            rw [← hr]
            exact ih
          exact congrArg (List.cons c) hJ
        | cons l2 ls2 =>
          have hJ : joinLines (l :: l2 :: ls2) = rest := by
            rw [← hr]
            exact ih
          show (c :: l) ++ '\n' :: joinLines (l2 :: ls2) = c :: rest
          rw [List.cons_append]
          exact congrArg (List.cons c) hJ

/-- `replaceAllGo` is the identity when the pattern does not occur. -/
theorem replaceAllGo_no_occ (p r : List Char) (fuel : Nat) (l : List Char)
    (h : occurs p l = false) : replaceAllGo p r fuel l = l := by
  induction fuel generalizing l with
  | zero => cases l <;> rfl
  | succ fuel ih =>
    cases l with
    | nil => rfl
    | cons c rest =>
      have hpre : p.isPrefixOf (c :: rest) = false := not_isPrefixOf_of_occurs_false p _ h
      have htail : occurs p rest = false := occurs_false_tail p c rest h
      show (if !p.isEmpty && p.isPrefixOf (c :: rest) then
              r ++ replaceAllGo p r fuel (rest.drop (p.length - 1))
            else c :: replaceAllGo p r fuel rest) = c :: rest
      rw [hpre, Bool.and_false, if_neg (by simp)]
      rw [ih rest htail]

/-- `replaceAll` is the identity when the pattern does not occur. -/
theorem replaceAll_no_occ (p r l : List Char) (h : occurs p l = false) :
    replaceAll p r l = l :=
  replaceAllGo_no_occ p r l.length l h

/-- Non-occurrence of a pattern forces non-occurrence of any extension of
that pattern. -/
theorem occurs_false_mono (p q l : List Char) (hpq : p.isPrefixOf q = true)
    (h : occurs p l = false) : occurs q l = false := by
  induction l with
  | nil =>
    cases q with
    | nil =>
      cases p with
      | nil => simp [occurs] at h
      | cons a as => simp [List.isPrefixOf] at hpq
    | cons b bs => rfl
  | cons c rest ih =>
    have h1 : p.isPrefixOf (c :: rest) = false := not_isPrefixOf_of_occurs_false p _ h
    have h2 : occurs p rest = false := occurs_false_tail p c rest h
    show (q.isPrefixOf (c :: rest) || occurs q rest) = false
    rw [ih h2, Bool.or_false]
    by_contra hc
    have hc' : q.isPrefixOf (c :: rest) = true := by
      revert hc
      cases q.isPrefixOf (c :: rest) <;> simp
    have := isPrefixOf_trans p q (c :: rest) hpq hc'
    rw [this] at h1
    cases h1

/-- The fenced wrapping has no surrounding whitespace to strip. -/
theorem pyStrip_fenceWrap (d : List Char) : pyStrip (fenceWrap d) = fenceWrap d := by
  have h1 : (fenceWrap d).dropWhile isPyWs = fenceWrap d := by
    unfold fenceWrap
    rw [List.append_assoc]
    exact dropWhile_append_eq_self isPyWs _ _ (by decide) (by decide)
  have h2 : (fenceWrap d).reverse.dropWhile isPyWs = (fenceWrap d).reverse := by
    unfold fenceWrap
    rw [List.reverse_append]
    exact dropWhile_append_eq_self isPyWs _ _ (by decide) (by decide)
  unfold pyStrip pyRStrip
  rw [h1, h2, List.reverse_reverse]

/-- The line decomposition of the fenced wrapping: the fence header line,
the document lines, and the closing fence line. -/
theorem splitLines_fenceWrap (d : List Char) :
    splitLines (fenceWrap d) =
      ("```json").toList :: (splitLines d ++ [("```").toList]) := by
  have hfw : fenceWrap d =
      ("```json").toList ++ ('\n' :: (d ++ '\n' :: ("```").toList)) := by
    unfold fenceWrap
    have e1 : ("```json\n").toList = ("```json").toList ++ ['\n'] := by decide
    have e2 : ("\n```").toList = '\n' :: ("```").toList := by decide
    rw [e1, e2, List.append_assoc, List.append_assoc, List.singleton_append]
  rw [hfw]
  have hys : splitLines ('\n' :: (d ++ '\n' :: ("```").toList)) =
      [] :: (splitLines d ++ [("```").toList]) := by
    rw [splitLines_cons_nl, splitLines_concat_line d _ (by decide)]
  rw [splitLines_append_left _ _ _ _ (by decide) hys]
  rw [List.append_nil]

/-- Normalizing the fenced document recovers the stripped document when the
document itself contains no triple backtick. -/
theorem stripCodeFences_fenceWrap (d : List Char)
    (h : occurs (("```").toList) d = false) :
    stripCodeFences (fenceWrap d) = pyStrip d := by
  have hocc7 : occurs (("```json").toList) d = false :=
    occurs_false_mono (("```").toList) (("```json").toList) d (by decide) h
  have hpre : (("```").toList).isPrefixOf (fenceWrap d) = true := by
    unfold fenceWrap
    rw [List.append_assoc]
    exact isPrefixOf_append_r _ _ _ (by decide)
  have hlen : 2 < (("```json").toList :: (splitLines d ++ [("```").toList])).length := by
    cases hsd : splitLines d with
    | nil => exact absurd hsd (splitLines_ne_nil d)
    | cons l0 ls0 => simp
  simp only [stripCodeFences]
  rw [pyStrip_fenceWrap d, hpre, if_pos rfl, splitLines_fenceWrap d, if_pos hlen]
  rw [List.drop_one, List.tail_cons, List.dropLast_concat]
  rw [joinLines_splitLines d]
  rw [replaceAll_no_occ _ _ _ hocc7, replaceAll_no_occ _ _ _ h]

/-- Normalizing the bare document is just the whitespace strip when the
document contains no triple backtick. -/
theorem stripCodeFences_plain (d : List Char)
    (h : occurs (("```").toList) d = false) :
    stripCodeFences d = pyStrip d := by
  have hocc : occurs (("```").toList) (pyStrip d) = false :=
    occurs_false_pyStrip (("```").toList) d h
  have hpre : (("```").toList).isPrefixOf (pyStrip d) = false :=
    not_isPrefixOf_of_occurs_false _ _ hocc
  simp only [stripCodeFences]
  rw [hpre, if_neg (by simp)]

/-- C5 counterexample: for the JSON document `{"a": "```"}`, whose string
value contains a triple backtick, the fenced and unfenced forms both parse
successfully but to different values: the fence-marker `replace` step
deletes the backticks inside the JSON string. -/
theorem claim_C5_counterexample :
    parse_json_response jsonLoads (fenceWrap (("\x7b\"a\": \"```\"\x7d").toList)) =
      some (JVal.jobj [(("a").toList, JVal.jstr [])]) ∧
    parse_json_response jsonLoads (("\x7b\"a\": \"```\"\x7d").toList) =
      some (JVal.jobj [(("a").toList, JVal.jstr (("```").toList))]) ∧
    ¬ (parse_json_response jsonLoads (fenceWrap (("\x7b\"a\": \"```\"\x7d").toList)) =
       parse_json_response jsonLoads (("\x7b\"a\": \"```\"\x7d").toList)) := by
  refine ⟨rfl, rfl, ?_⟩
  intro hEq
  have h1 : parse_json_response jsonLoads (fenceWrap (("\x7b\"a\": \"```\"\x7d").toList)) =
      some (JVal.jobj [(("a").toList, JVal.jstr [])]) := rfl
  have h2 : parse_json_response jsonLoads (("\x7b\"a\": \"```\"\x7d").toList) =
      some (JVal.jobj [(("a").toList, JVal.jstr (("```").toList))]) := rfl
  rw [h1, h2] at hEq
  simp at hEq

/-- C5 amended: for every JSON document (any text) that contains no triple
backtick, parsing the model response wrapped in a Markdown code fence (a
leading fence line with the `json` tag and a trailing fence line) yields
exactly the same result as parsing the bare document, for any behaviour of
the external JSON parser; the policy is the embedded `stripCodeFences`
pipeline.  (Documents containing a triple backtick are excluded: see the
counterexample.) -/
theorem claim_C5_fence_equivalence (loads : List Char → Option JVal) (d : List Char)
    (h : occurs (("```").toList) d = false) :
    parse_json_response loads (fenceWrap d) = parse_json_response loads d := by
  unfold parse_json_response
  rw [stripCodeFences_fenceWrap d h, stripCodeFences_plain d h]

/-- C5 witness: the document `{"a": 1}` parses identically fenced and
unfenced under the modelled `json.loads`. -/
theorem claim_C5_fence_equivalence_witness :
    occurs (("```").toList) (("\x7b\"a\": 1\x7d").toList) = false ∧
    parse_json_response jsonLoads (fenceWrap (("\x7b\"a\": 1\x7d").toList)) =
      parse_json_response jsonLoads (("\x7b\"a\": 1\x7d").toList) :=
  ⟨by decide,
   claim_C5_fence_equivalence jsonLoads (("\x7b\"a\": 1\x7d").toList) (by decide)⟩
